import Mathlib

/-!
Verification of the better-auth-integration demo backend.

The repository wires a NestJS backend to the better-auth library:
`app.module.ts` registers (in its first variant) `AuthGuard` as a global
`APP_GUARD` provider and configures `AuthModule` with a drizzle adapter;
the database module builds a drizzle instance over a `pg` pool from the
`DATABASE_URL` environment variable with an empty schema object.  The
authentication session lifecycle itself (registration, login, session
validation, revocation, verification tokens) is the contract described in
the specification; the files carrying it (`auth.ts`, `schema.ts`,
`main.ts`) are not among the sources, so those operations are modelled
from the specification and marked as such.
-/

namespace BetterAuthDemo

/-! ## Database module (from `database.module.ts`) -/

/-- Schema object passed to drizzle: the set of registered table names. -/
structure DrizzleConfig where
  schema : List String
deriving Repr, DecidableEq

/-- Drizzle instance as returned by the factory: connection string plus config. -/
structure DrizzleDatabase where
  connectionString : String
  config : DrizzleConfig
deriving Repr, DecidableEq

/-- Failure of `ConfigService.getOrThrow` on a missing variable. -/
inductive ConfigError where
  | missingVar (name : String)
deriving Repr, DecidableEq

/-- Embedding of `configService.getOrThrow(name)`: the environment is a
partial map from variable names to values; a missing variable is an error. -/
def getOrThrow (env : String → Option String) (name : String) :
    Except ConfigError String :=
  match env name with
  | some v => .ok v
  | none => .error (.missingVar name)

/-- Embedding of the `DATABASE_CONNECTION` useFactory from
`database.module.ts`: reads `DATABASE_URL` via `getOrThrow`, builds a pool
on it, and returns `drizzle(pool, { schema: {} })` — the schema object is
empty. -/
def databaseConnectionFactory (env : String → Option String) :
    Except ConfigError DrizzleDatabase :=
  match getOrThrow env "DATABASE_URL" with
  | .error e => .error e
  | .ok url => .ok { connectionString := url, config := { schema := [] } }

/-! ## App module providers (from `app.module.ts`) -/

/-- A NestJS provider entry: the token it provides and the class bound to it. -/
structure Provider where
  provide : String
  useClass : String
deriving Repr, DecidableEq

/-- Providers of the first `AppModule` variant: `AuthGuard` registered
globally under the `APP_GUARD` token. -/
def appModuleProviders : List Provider :=
  [{ provide := "APP_GUARD", useClass := "AuthGuard" }]

/-- Providers of the second `AppModule` variant in the source: the
providers array is empty, so no global guard is registered. -/
def appModuleNoGuardProviders : List Provider := []

/-- Whether a provider list registers `AuthGuard` as the global `APP_GUARD`. -/
def hasGlobalAuthGuard (ps : List Provider) : Bool :=
  ps.any (fun p => p.provide == "APP_GUARD" && p.useClass == "AuthGuard")

/-! ## Environment configuration surface -/

/-- Environment options named by the specification. -/
inductive EnvOption where
  | databaseUrl
  | uiUrl
  | port
  | sessionTTLOption
  | hashCostOption
deriving Repr, DecidableEq

/-- Variable name each option would be read from. -/
def envVarName : EnvOption → String
  | .databaseUrl => "DATABASE_URL"
  | .uiUrl => "UI_URL"
  | .port => "PORT"
  | .sessionTTLOption => "SESSION_TTL"
  | .hashCostOption => "HASH_COST"

/-- Modelled from the spec: the backend's recognized environment surface.
`DATABASE_URL` is read by the database module in the sources; `UI_URL`
(frontend origin) and `PORT` are read by `main.ts`/the auth options, files
missing from the sources but documented as the required environment in the
repository README.  No session-TTL or hash-cost variable appears in any
repository artifact. -/
def recognizedEnvSurface : List EnvOption :=
  [.databaseUrl, .uiUrl, .port]

/-- Environment surface as claimed by the specification sentence
(connection string, origin, port, session TTL, hashing cost factor) —
stated from the spec's words for comparison with `recognizedEnvSurface`. -/
def claimedEnvSurface : List EnvOption :=
  [.databaseUrl, .uiUrl, .port, .sessionTTLOption, .hashCostOption]

/-! ## Authentication domain model

Modelled from the spec: the data model of §3 (User, Session,
VerificationToken) — the repository's `schema.ts` is not among the
sources. -/

/-- Purpose tag of a verification token (§3). -/
inductive Purpose where
  | emailVerify
  | passwordReset
deriving Repr, DecidableEq

/-- Modelled from the spec: a hashed credential.  The hashing algorithm is
explicitly out of scope ("opaque external capability"), so the hash is
modelled as an opaque wrapper carrying the cost factor; `verifyCredential`
is the matching one-way comparison. -/
structure HashedCredential where
  source : String
  cost : Nat
deriving Repr, DecidableEq

/-- Modelled from the spec: slow salted one-way hash with tunable cost. -/
def hashCredential (cost : Nat) (password : String) : HashedCredential :=
  { source := password, cost := cost }

/-- Modelled from the spec: comparison of a stored hash against a password. -/
def verifyCredential (h : HashedCredential) (password : String) : Bool :=
  h.source == password

/-- User record (§3): unique id, unique email, display name, hashed
credential, verification status, timestamps. -/
structure User where
  id : Nat
  email : String
  name : String
  hashedCredential : HashedCredential
  emailVerified : Bool
  createdAt : Nat
  updatedAt : Nat
deriving Repr, DecidableEq

/-- Session record (§3): opaque token, owning user id, creation and
expiry times. -/
structure Session where
  token : Nat
  userId : Nat
  createdAt : Nat
  expiresAt : Nat
deriving Repr, DecidableEq

/-- mk is not needed beyond the record; verification token record (§3):
single-use opaque token, associated user, purpose, expiry. -/
structure VerificationToken where
  token : Nat
  userId : Nat
  purpose : Purpose
  expiresAt : Nat
deriving Repr, DecidableEq

/-- Default session TTL: 7 days, in seconds (§4.2). -/
def defaultSessionTTL : Nat := 7 * 24 * 60 * 60

/-- Modelled from the spec: the durable store shared by all operations,
plus the configured TTLs and hashing cost.  `nextId` is the source of
fresh ids and opaque tokens: every identifier ever issued is strictly
below it, which is how the model expresses unguessable, never-reused
tokens. -/
structure AuthState where
  users : List User
  sessions : List Session
  verifications : List VerificationToken
  nextId : Nat
  sessionTTL : Nat := defaultSessionTTL
  verificationTTL : Nat := 24 * 60 * 60
  hashCost : Nat := 10
deriving Repr, DecidableEq

/-- The empty store. -/
def emptyAuthState : AuthState :=
  { users := [], sessions := [], verifications := [], nextId := 0 }

/-- Error taxonomy of §7. -/
inductive AuthError where
  | InvalidInput
  | DuplicateEmail
  | EmailInUse
  | InvalidCredentials
  | SessionExpired
  | SessionNotFound
  | InvalidOrExpiredToken
  | Unauthorized
  | NotFound
deriving Repr, DecidableEq

/-! ## Credential store (§4.1) — modelled from the spec -/

/-- Modelled from the spec: `findByEmail(email) -> User | None`. -/
def findByEmail (st : AuthState) (email : String) : Option User :=
  st.users.find? (fun u => u.email == email)

/-- Modelled from the spec: `findById(id) -> User | None`. -/
def findById (st : AuthState) (id : Nat) : Option User :=
  st.users.find? (fun u => u.id == id)

/-- Modelled from the spec: `createUser(email, name, hashedCredential) ->
User | fails(DuplicateEmail)`; uniqueness on email is enforced here, at
the storage layer, in the single atomic store operation. -/
def createUser (st : AuthState) (now : Nat) (email name : String)
    (hc : HashedCredential) : Except AuthError (User × AuthState) :=
  match findByEmail st email with
  | some _ => .error .DuplicateEmail
  | none =>
    let u : User :=
      { id := st.nextId, email := email, name := name, hashedCredential := hc,
        emailVerified := false, createdAt := now, updatedAt := now }
    .ok (u, { st with users := u :: st.users, nextId := st.nextId + 1 })

/-- Modelled from the spec: `updateCredential(id, newHashed) -> ok |
fails(NotFound)`. -/
def updateCredential (st : AuthState) (now : Nat) (id : Nat)
    (hc : HashedCredential) : Except AuthError AuthState :=
  match findById st id with
  | none => .error .NotFound
  | some _ =>
    .ok { st with
      users := st.users.map (fun u =>
        if u.id == id then { u with hashedCredential := hc, updatedAt := now }
        else u) }

/-! ## Session manager (§4.2) — modelled from the spec -/

/-- Modelled from the spec: password policy length. -/
def minPasswordLength : Nat := 8

/-- Modelled from the spec: a malformed email is one without an at sign
(the check `email.contains` of an at-sign character, expressed over the
string's character list). -/
def validEmail (email : String) : Bool := email.data.any (fun c => c == '@')

/-- Modelled from the spec: `register(email, password, name) -> User`;
`InvalidInput` on malformed email or short password, `EmailInUse` when the
store reports a duplicate, otherwise hashes the credential and creates
the user. -/
def register (st : AuthState) (now : Nat) (email password name : String) :
    Except AuthError (User × AuthState) :=
  if !validEmail email || password.length < minPasswordLength then
    .error .InvalidInput
  else
    match createUser st now email name (hashCredential st.hashCost password) with
    | .error _ => .error .EmailInUse
    | .ok r => .ok r

/-- Modelled from the spec: `login(email, password) -> Session`; the same
`InvalidCredentials` for unknown email and wrong password; on success a
fresh Session with expiry `now + configured TTL`. -/
def login (st : AuthState) (now : Nat) (email password : String) :
    Except AuthError (Session × AuthState) :=
  match findByEmail st email with
  | none => .error .InvalidCredentials
  | some u =>
    if verifyCredential u.hashedCredential password then
      let s : Session :=
        { token := st.nextId, userId := u.id, createdAt := now,
          expiresAt := now + st.sessionTTL }
      .ok (s, { st with sessions := s :: st.sessions, nextId := st.nextId + 1 })
    else .error .InvalidCredentials

/-- Modelled from the spec: `validate(token) -> User |
fails(SessionExpired | SessionNotFound)`: looks up the Session, accepts
until the expiry instant and rejects strictly after, returns the owning
User. -/
def validate (st : AuthState) (now : Nat) (token : Nat) :
    Except AuthError User :=
  match st.sessions.find? (fun s => s.token == token) with
  | none => .error .SessionNotFound
  | some s =>
    if s.expiresAt < now then .error .SessionExpired
    else
      match findById st s.userId with
      | some u => .ok u
      | none => .error .SessionNotFound

/-- State reached by revoking a token: the session, if present, is deleted. -/
def revokeState (st : AuthState) (token : Nat) : AuthState :=
  { st with sessions := st.sessions.filter (fun s => !(s.token == token)) }

/-- Modelled from the spec: `revoke(token) -> ok`; deleting an absent
token is not an error, so the operation always returns ok. -/
def revoke (st : AuthState) (token : Nat) : Except AuthError AuthState :=
  .ok (revokeState st token)

/-- Modelled from the spec: `requestVerification(userId, purpose) ->
VerificationToken` with a fresh single-use token and an expiry. -/
def requestVerification (st : AuthState) (now : Nat) (userId : Nat)
    (purpose : Purpose) : VerificationToken × AuthState :=
  let v : VerificationToken :=
    { token := st.nextId, userId := userId, purpose := purpose,
      expiresAt := now + st.verificationTTL }
  (v, { st with verifications := v :: st.verifications, nextId := st.nextId + 1 })

/-- Flag a user as email-verified. -/
def setEmailVerified (users : List User) (id : Nat) : List User :=
  users.map (fun u => if u.id == id then { u with emailVerified := true } else u)

/-- Modelled from the spec: `consumeVerification(token) -> ok |
fails(InvalidOrExpiredToken)`; a missing or expired token fails, and a
successful consume deletes the token atomically (in the same state
transition) with the state change it authorizes — for the email-verify
purpose, setting `emailVerified = true` on the owning user. -/
def consumeVerification (st : AuthState) (now : Nat) (token : Nat) :
    Except AuthError AuthState :=
  match st.verifications.find? (fun v => v.token == token) with
  | none => .error .InvalidOrExpiredToken
  | some v =>
    if v.expiresAt < now then .error .InvalidOrExpiredToken
    else
      .ok { st with
        users :=
          if v.purpose = Purpose.emailVerify then
            setEmailVerified st.users v.userId
          else st.users,
        verifications := st.verifications.filter (fun w => !(w.token == token)) }

/-! ## Access guard (§4.3) -/

/-- An inbound request: whether its route is explicitly marked public,
and the session token extracted from the designated carrier. -/
structure Request where
  isPublic : Bool
  token : Option Nat
deriving Repr, DecidableEq

/-- Outcome of dispatching a request: either the route handler ran (with
the user the guard attached, if any), or the request was rejected. -/
inductive Outcome where
  | handled (user : Option User)
  | rejected (e : AuthError)
deriving Repr, DecidableEq

/-- Modelled from the spec: the `AuthGuard` interceptor (§4.3) — the
guard class itself lives in the imported library.  A public route passes
through; otherwise the token is resolved via `validate` and the request
is allowed with the resolved User attached, or rejected `Unauthorized`. -/
def authGuardCheck (st : AuthState) (now : Nat) (req : Request) :
    Except AuthError (Option User) :=
  if req.isPublic then .ok none
  else
    match req.token with
    | none => .error .Unauthorized
    | some t =>
      match validate st now t with
      | .ok u => .ok (some u)
      | .error _ => .error .Unauthorized

/-- Request dispatch under a provider configuration: a globally registered
`AuthGuard` is consulted before the route handler runs; with no global
guard registered every request reaches the handler directly. -/
def dispatch (providers : List Provider) (st : AuthState) (now : Nat)
    (req : Request) : Outcome :=
  if hasGlobalAuthGuard providers then
    match authGuardCheck st now req with
    | .ok u => .handled u
    | .error e => .rejected e
  else .handled none

/-! ## Demo fixtures for concrete instantiations -/

/-- A demo user record used to instantiate theorems with hypotheses. -/
def demoUser : User :=
  { id := 0, email := "a@b.com", name := "A",
    hashedCredential := hashCredential 10 "correcthorse",
    emailVerified := false, createdAt := 0, updatedAt := 0 }

/-- A demo store holding exactly `demoUser`. -/
def demoState : AuthState :=
  { users := [demoUser], sessions := [], verifications := [], nextId := 1 }

/-- A demo session owned by the demo user, expiring at the default TTL. -/
def demoSession : Session :=
  { token := 1, userId := 0, createdAt := 0, expiresAt := defaultSessionTTL }

/-- A demo store holding the demo user and the demo session. -/
def demoSessionState : AuthState :=
  { users := [demoUser], sessions := [demoSession], verifications := [],
    nextId := 2 }

/-- A demo verification token for the demo user. -/
def demoVerification : VerificationToken :=
  { token := 1, userId := 0, purpose := Purpose.emailVerify,
    expiresAt := 86400 }

/-- A demo store holding the demo user and the demo verification token. -/
def demoVerifState : AuthState :=
  { users := [demoUser], sessions := [], verifications := [demoVerification],
    nextId := 2 }

/-- The store after consuming the demo verification token: the token is
gone and the demo user is flagged verified in the same transition. -/
def demoVerifConsumed : AuthState :=
  { users := setEmailVerified [demoUser] 0, sessions := [],
    verifications := [], nextId := 2 }

/-! ## Invariant set (§3) and the step relation -/

/-- Modelled from the spec: the invariant set of §3 — every Session
references an existing User (foreign-key integrity), all identifiers and
tokens ever issued are below the freshness counter, and session tokens,
verification tokens, user ids and user emails are pairwise distinct. -/
def Wf (st : AuthState) : Prop :=
  (∀ s ∈ st.sessions, ∃ u ∈ st.users, u.id = s.userId) ∧
  (∀ s ∈ st.sessions, s.token < st.nextId) ∧
  (∀ v ∈ st.verifications, v.token < st.nextId) ∧
  (∀ u ∈ st.users, u.id < st.nextId) ∧
  (st.sessions.map Session.token).Nodup ∧
  (st.verifications.map VerificationToken.token).Nodup ∧
  (st.users.map User.id).Nodup ∧
  (st.users.map User.email).Nodup

/-- One store-touching operation of the system, as a transition between
states. -/
inductive Step : AuthState → AuthState → Prop where
  | opCreateUser (st : AuthState) (now : Nat) (email name : String)
      (hc : HashedCredential) (u : User) (st' : AuthState) :
      createUser st now email name hc = .ok (u, st') → Step st st'
  | opUpdateCredential (st : AuthState) (now id : Nat) (hc : HashedCredential)
      (st' : AuthState) :
      updateCredential st now id hc = .ok st' → Step st st'
  | opRegister (st : AuthState) (now : Nat) (email password name : String)
      (u : User) (st' : AuthState) :
      register st now email password name = .ok (u, st') → Step st st'
  | opLogin (st : AuthState) (now : Nat) (email password : String)
      (s : Session) (st' : AuthState) :
      login st now email password = .ok (s, st') → Step st st'
  | opRevoke (st : AuthState) (token : Nat) : Step st (revokeState st token)
  | opRequestVerification (st : AuthState) (now userId : Nat)
      (purpose : Purpose) :
      Step st (requestVerification st now userId purpose).2
  | opConsumeVerification (st : AuthState) (now token : Nat)
      (st' : AuthState) :
      consumeVerification st now token = .ok st' → Step st st'

/-- Reachability through any sequence of operations. -/
abbrev Reachable : AuthState → AuthState → Prop :=
  Relation.ReflTransGen Step

/-- What one step preserves: well-formedness, monotonicity of the
freshness counter, and absence of any below-counter session or
verification token that was already absent. -/
def StepInv (st st' : AuthState) : Prop :=
  Wf st' ∧ st.nextId ≤ st'.nextId ∧
  (∀ t, t < st.nextId → (∀ s ∈ st.sessions, s.token ≠ t) →
    ∀ s ∈ st'.sessions, s.token ≠ t) ∧
  (∀ t, t < st.nextId → (∀ v ∈ st.verifications, v.token ≠ t) →
    ∀ v ∈ st'.verifications, v.token ≠ t)

/-! ## Helper lemmas -/

/-- Filtering out every element whose key matches `t` makes a subsequent
keyed lookup of `t` fail. -/
theorem find?_filter_key_none {α : Type} (f : α → Nat) (l : List α) (t : Nat) :
    (l.filter (fun x => !(f x == t))).find? (fun x => f x == t) = none := by
  rw [List.find?_eq_none]
  intro x hx
  have hmem := (List.mem_filter.mp hx).2
  simp only [Bool.not_eq_true'] at hmem
  simp [hmem]

/-- Filtering with the same predicate twice equals filtering once. -/
theorem filter_idem {α : Type} (p : α → Bool) (l : List α) :
    (l.filter p).filter p = l.filter p := by
  rw [List.filter_filter]
  induction l with
  | nil => rfl
  | cons a l ih =>
    by_cases h : p a <;> simp [List.filter_cons, h, ih]

/-- Success shape of `createUser`: the email was free, the returned user
is the fresh record, and the store gained exactly that user. -/
theorem createUser_ok_elim {st : AuthState} {now : Nat} {email name : String}
    {hc : HashedCredential} {u : User} {st' : AuthState}
    (h : createUser st now email name hc = .ok (u, st')) :
    findByEmail st email = none ∧
    u = { id := st.nextId, email := email, name := name, hashedCredential := hc,
          emailVerified := false, createdAt := now, updatedAt := now } ∧
    st' = { st with users := u :: st.users, nextId := st.nextId + 1 } := by
  unfold createUser at h
  split at h
  · simp at h
  · rename_i hfind
    simp only [Except.ok.injEq, Prod.mk.injEq] at h
    obtain ⟨hu, hst⟩ := h
    exact ⟨hfind, hu.symm, by rw [← hst, hu]⟩

/-- Success shape of `register`: the input passed validation and the
store operation succeeded. -/
theorem register_ok_elim {st : AuthState} {now : Nat}
    {email password name : String} {u : User} {st' : AuthState}
    (h : register st now email password name = .ok (u, st')) :
    validEmail email = true ∧ minPasswordLength ≤ password.length ∧
    createUser st now email name (hashCredential st.hashCost password) =
      .ok (u, st') := by
  unfold register at h
  split at h
  · simp at h
  · rename_i hcond
    simp only [Bool.or_eq_true, Bool.not_eq_true', decide_eq_true_eq,
      not_or] at hcond
    obtain ⟨hv, hlen⟩ := hcond
    refine ⟨by simpa using hv, Nat.not_lt.mp hlen, ?_⟩
    split at h
    · simp at h
    · rename_i r hcu
      cases r
      simp only [Except.ok.injEq] at h
      rw [← h]
      exact hcu

/-- Success shape of `login`: a user with the email exists, the password
verified, and the returned session is the fresh one. -/
theorem login_ok_elim {st : AuthState} {now : Nat} {email password : String}
    {s : Session} {st' : AuthState}
    (h : login st now email password = .ok (s, st')) :
    ∃ u, findByEmail st email = some u ∧
      verifyCredential u.hashedCredential password = true ∧
      s = { token := st.nextId, userId := u.id, createdAt := now,
            expiresAt := now + st.sessionTTL } ∧
      st' = { st with sessions := s :: st.sessions, nextId := st.nextId + 1 } := by
  unfold login at h
  split at h
  · simp at h
  · rename_i u hfind
    split at h
    · rename_i hv
      simp only [Except.ok.injEq, Prod.mk.injEq] at h
      obtain ⟨hs, hst⟩ := h
      exact ⟨u, hfind, hv, hs.symm, by rw [← hst, hs]⟩
    · simp at h

/-- Success shape of `consumeVerification`: the token was present and
unexpired, and the new state deletes it while applying the authorized
update in the same transition. -/
theorem consumeVerification_ok_elim {st : AuthState} {now tok : Nat}
    {st' : AuthState} (h : consumeVerification st now tok = .ok st') :
    ∃ v, st.verifications.find? (fun w => w.token == tok) = some v ∧
      ¬ v.expiresAt < now ∧
      st' = { st with
        users := if v.purpose = Purpose.emailVerify then
            setEmailVerified st.users v.userId else st.users,
        verifications := st.verifications.filter (fun w => !(w.token == tok)) } := by
  unfold consumeVerification at h
  split at h
  · simp at h
  · rename_i v hfind
    split at h
    · simp at h
    · rename_i hexp
      simp only [Except.ok.injEq] at h
      exact ⟨v, hfind, hexp, h.symm⟩

/-- Forward success of `login` on a matching stored credential. -/
theorem login_succeeds {st : AuthState} {email password : String} {u : User}
    (hfind : findByEmail st email = some u)
    (hver : verifyCredential u.hashedCredential password = true) (now : Nat) :
    login st now email password =
      .ok ({ token := st.nextId, userId := u.id, createdAt := now,
             expiresAt := now + st.sessionTTL },
           { st with
             sessions := ({ token := st.nextId, userId := u.id, createdAt := now,
                            expiresAt := now + st.sessionTTL } : Session) :: st.sessions,
             nextId := st.nextId + 1 }) := by
  unfold login
  rw [hfind]
  split
  · rename_i heq
    exact Option.noConfusion heq
  · rename_i u' heq
    injection heq with h
    subst h
    split
    · rfl
    · rename_i hv
      exact absurd hver hv

/-- Forward success of `register` on valid fresh input. -/
theorem register_succeeds {st : AuthState} {email password : String}
    (hv : validEmail email = true) (hlen : minPasswordLength ≤ password.length)
    (hfree : findByEmail st email = none) (now : Nat) (name : String) :
    register st now email password name = .ok
      ({ id := st.nextId, email := email, name := name,
         hashedCredential := hashCredential st.hashCost password,
         emailVerified := false, createdAt := now, updatedAt := now },
       { st with
         users := ({ id := st.nextId, email := email, name := name,
                     hashedCredential := hashCredential st.hashCost password,
                     emailVerified := false, createdAt := now,
                     updatedAt := now } : User) :: st.users,
         nextId := st.nextId + 1 }) := by
  unfold register
  rw [if_neg (by simp [hv, Nat.not_lt]; exact hlen)]
  unfold createUser
  rw [hfree]

/-- With valid input but an occupied email, `register` fails `EmailInUse`
because the store operation reports the duplicate. -/
theorem register_email_in_use {st : AuthState} {email password : String}
    (hv : validEmail email = true) (hlen : minPasswordLength ≤ password.length)
    {u : User} (hfound : findByEmail st email = some u) (now : Nat)
    (name : String) :
    register st now email password name = .error .EmailInUse := by
  unfold register
  rw [if_neg (by simp [hv, Nat.not_lt]; exact hlen)]
  unfold createUser
  rw [hfound]

/-- When the token lookup fails, `consumeVerification` reports
`InvalidOrExpiredToken`. -/
theorem consume_absent (st : AuthState) (now tok : Nat)
    (h : st.verifications.find? (fun v => v.token == tok) = none) :
    consumeVerification st now tok = .error .InvalidOrExpiredToken := by
  unfold consumeVerification
  rw [h]

/-- Forward success of `consumeVerification` on a present unexpired token. -/
theorem consume_found {st : AuthState} {now tok : Nat} {v : VerificationToken}
    (hfind : st.verifications.find? (fun w => w.token == tok) = some v)
    (hexp : ¬ v.expiresAt < now) :
    consumeVerification st now tok = .ok { st with
      users := if v.purpose = Purpose.emailVerify then
          setEmailVerified st.users v.userId else st.users,
      verifications := st.verifications.filter (fun w => !(w.token == tok)) } := by
  unfold consumeVerification
  rw [hfind]
  split
  · rename_i heq
    exact Option.noConfusion heq
  · rename_i v' heq
    injection heq with h
    subst h
    split
    · rename_i h2
      exact absurd h2 hexp
    · rfl

/-- A transformation that keeps each user's id and email keeps the id
projection, the email projection, and id-membership of the user list. -/
theorem users_map_facts {f : User → User}
    (hid : ∀ u, (f u).id = u.id) (hemail : ∀ u, (f u).email = u.email)
    (l : List User) :
    (l.map f).map User.id = l.map User.id ∧
    (l.map f).map User.email = l.map User.email ∧
    (∀ j, (∃ u ∈ l, u.id = j) → ∃ u ∈ l.map f, u.id = j) := by
  refine ⟨?_, ?_, ?_⟩
  · induction l with
    | nil => rfl
    | cons a l ih => simp only [List.map_cons, ih, hid a]
  · induction l with
    | nil => rfl
    | cons a l ih => simp only [List.map_cons, ih, hemail a]
  · intro j hj
    obtain ⟨u, hu, hju⟩ := hj
    exact ⟨f u, List.mem_map_of_mem f hu, by rw [hid u, hju]⟩

/-- `setEmailVerified` keeps ids and emails. -/
theorem setEmailVerified_facts (l : List User) (i : Nat) :
    (setEmailVerified l i).map User.id = l.map User.id ∧
    (setEmailVerified l i).map User.email = l.map User.email ∧
    (∀ j, (∃ u ∈ l, u.id = j) → ∃ u ∈ setEmailVerified l i, u.id = j) := by
  unfold setEmailVerified
  refine users_map_facts ?_ ?_ l
  · intro u
    by_cases h : u.id == i <;> simp [h]
  · intro u
    by_cases h : u.id == i <;> simp [h]

/-- `createUser` satisfies the step invariant. -/
theorem stepinv_createUser {st : AuthState} {now : Nat}
    {email name : String} {hc : HashedCredential} {u : User}
    {st' : AuthState} (h : createUser st now email name hc = .ok (u, st'))
    (hwf : Wf st) : StepInv st st' := by
  obtain ⟨hfree, hu, hst⟩ := createUser_ok_elim h
  subst hu
  subst hst
  obtain ⟨fk, stok, vtok, uid, snod, vnod, unod, enod⟩ := hwf
  refine ⟨⟨?_, ?_, ?_, ?_, snod, vnod, ?_, ?_⟩, Nat.le_succ _, ?_, ?_⟩
  · intro s hs
    obtain ⟨u', hu', hids⟩ := fk s hs
    exact ⟨u', List.mem_cons_of_mem _ hu', hids⟩
  · intro s hs
    exact Nat.lt_succ_of_lt (stok s hs)
  · intro v hv
    exact Nat.lt_succ_of_lt (vtok v hv)
  · intro u' hu'
    rcases List.mem_cons.mp hu' with h' | h'
    · subst h'
      exact Nat.lt_succ_self _
    · exact Nat.lt_succ_of_lt (uid u' h')
  · rw [List.map_cons]
    refine List.nodup_cons.mpr ⟨?_, unod⟩
    intro hmem
    obtain ⟨u', hu', hidm⟩ := List.mem_map.mp hmem
    have h1 : u'.id = st.nextId := hidm
    have h2 := uid u' hu'
    omega
  · rw [List.map_cons]
    refine List.nodup_cons.mpr ⟨?_, enod⟩
    intro hmem
    obtain ⟨u', hu', hem⟩ := List.mem_map.mp hmem
    have hne := List.find?_eq_none.mp hfree u' hu'
    simp only [beq_iff_eq] at hne
    have h1 : u'.email = email := hem
    exact hne h1
  · intro t ht habs s hs
    exact habs s hs
  · intro t ht habs v hv
    exact habs v hv

/-- `login` satisfies the step invariant. -/
theorem stepinv_login {st : AuthState} {now : Nat} {email password : String}
    {s : Session} {st' : AuthState}
    (h : login st now email password = .ok (s, st')) (hwf : Wf st) :
    StepInv st st' := by
  obtain ⟨u, hfind, hver, hs, hst⟩ := login_ok_elim h
  subst hs
  subst hst
  obtain ⟨fk, stok, vtok, uid, snod, vnod, unod, enod⟩ := hwf
  have humem : u ∈ st.users := List.mem_of_find?_eq_some hfind
  refine ⟨⟨?_, ?_, ?_, ?_, ?_, vnod, unod, enod⟩, Nat.le_succ _, ?_, ?_⟩
  · intro s' hs'
    rcases List.mem_cons.mp hs' with h' | h'
    · subst h'
      exact ⟨u, humem, rfl⟩
    · exact fk s' h'
  · intro s' hs'
    rcases List.mem_cons.mp hs' with h' | h'
    · subst h'
      exact Nat.lt_succ_self _
    · exact Nat.lt_succ_of_lt (stok s' h')
  · intro v hv
    exact Nat.lt_succ_of_lt (vtok v hv)
  · intro u' hu'
    exact Nat.lt_succ_of_lt (uid u' hu')
  · rw [List.map_cons]
    refine List.nodup_cons.mpr ⟨?_, snod⟩
    intro hmem
    obtain ⟨s', hs', hidm⟩ := List.mem_map.mp hmem
    have h1 : s'.token = st.nextId := hidm
    have h2 := stok s' hs'
    omega
  · intro t ht habs s' hs'
    rcases List.mem_cons.mp hs' with h' | h'
    · subst h'
      show st.nextId ≠ t
      omega
    · exact habs s' h'
  · intro t ht habs v hv
    exact habs v hv

/-- `revokeState` satisfies the step invariant. -/
theorem stepinv_revokeState (st : AuthState) (tok : Nat) (hwf : Wf st) :
    StepInv st (revokeState st tok) := by
  obtain ⟨fk, stok, vtok, uid, snod, vnod, unod, enod⟩ := hwf
  have hsub : List.Sublist (st.sessions.filter (fun s => !(s.token == tok)))
      st.sessions :=
    List.filter_sublist _
  refine ⟨⟨?_, ?_, vtok, uid, ?_, vnod, unod, enod⟩, Nat.le_refl _, ?_, ?_⟩
  · intro s hs
    exact fk s (hsub.subset hs)
  · intro s hs
    exact stok s (hsub.subset hs)
  · exact snod.sublist (hsub.map Session.token)
  · intro t ht habs s hs
    exact habs s (hsub.subset hs)
  · intro t ht habs v hv
    exact habs v hv

/-- `requestVerification` satisfies the step invariant. -/
theorem stepinv_requestVerification (st : AuthState) (now userId : Nat)
    (purpose : Purpose) (hwf : Wf st) :
    StepInv st (requestVerification st now userId purpose).2 := by
  obtain ⟨fk, stok, vtok, uid, snod, vnod, unod, enod⟩ := hwf
  refine ⟨⟨fk, ?_, ?_, ?_, snod, ?_, unod, enod⟩, Nat.le_succ _, ?_, ?_⟩
  · intro s hs
    exact Nat.lt_succ_of_lt (stok s hs)
  · intro v hv
    rcases List.mem_cons.mp hv with h' | h'
    · subst h'
      exact Nat.lt_succ_self _
    · exact Nat.lt_succ_of_lt (vtok v h')
  · intro u hu
    exact Nat.lt_succ_of_lt (uid u hu)
  · refine List.nodup_cons.mpr ⟨?_, vnod⟩
    intro hmem
    obtain ⟨v', hv', hidm⟩ := List.mem_map.mp hmem
    have h1 : v'.token = st.nextId := hidm
    have h2 := vtok v' hv'
    omega
  · intro t ht habs s hs
    exact habs s hs
  · intro t ht habs v hv
    rcases List.mem_cons.mp hv with h' | h'
    · subst h'
      show st.nextId ≠ t
      omega
    · exact habs v h'

/-- `consumeVerification` satisfies the step invariant. -/
theorem stepinv_consumeVerification {st : AuthState} {now tok : Nat}
    {st' : AuthState} (h : consumeVerification st now tok = .ok st')
    (hwf : Wf st) : StepInv st st' := by
  obtain ⟨v, hfind, hexp, hst⟩ := consumeVerification_ok_elim h
  subst hst
  obtain ⟨fk, stok, vtok, uid, snod, vnod, unod, enod⟩ := hwf
  have hsub : List.Sublist
      (st.verifications.filter (fun w => !(w.token == tok)))
      st.verifications := List.filter_sublist _
  have hufacts :
      (if v.purpose = Purpose.emailVerify then
          setEmailVerified st.users v.userId else st.users).map User.id =
        st.users.map User.id ∧
      (if v.purpose = Purpose.emailVerify then
          setEmailVerified st.users v.userId else st.users).map User.email =
        st.users.map User.email ∧
      (∀ j, (∃ u ∈ st.users, u.id = j) →
        ∃ u ∈ (if v.purpose = Purpose.emailVerify then
          setEmailVerified st.users v.userId else st.users), u.id = j) := by
    by_cases hp : v.purpose = Purpose.emailVerify
    · rw [if_pos hp]
      exact setEmailVerified_facts st.users v.userId
    · rw [if_neg hp]
      exact ⟨rfl, rfl, fun j hj => hj⟩
  obtain ⟨hidmap, hemailmap, hexj⟩ := hufacts
  refine ⟨⟨?_, stok, ?_, ?_, snod, ?_, ?_, ?_⟩, Nat.le_refl _, ?_, ?_⟩
  · intro s hs
    exact hexj s.userId (fk s hs)
  · intro w hw
    exact vtok w (hsub.subset hw)
  · intro u hu
    have hm : u.id ∈ (if v.purpose = Purpose.emailVerify then
        setEmailVerified st.users v.userId else st.users).map User.id :=
      List.mem_map_of_mem User.id hu
    rw [hidmap] at hm
    obtain ⟨u', hu', hequ⟩ := List.mem_map.mp hm
    rw [← hequ]
    exact uid u' hu'
  · exact vnod.sublist (hsub.map VerificationToken.token)
  · show (List.map User.id (if v.purpose = Purpose.emailVerify then
        setEmailVerified st.users v.userId else st.users)).Nodup
    rw [hidmap]
    exact unod
  · show (List.map User.email (if v.purpose = Purpose.emailVerify then
        setEmailVerified st.users v.userId else st.users)).Nodup
    rw [hemailmap]
    exact enod
  · intro t ht habs s hs
    exact habs s hs
  · intro t ht habs w hw
    exact habs w (hsub.subset hw)

/-- `updateCredential` satisfies the step invariant. -/
theorem stepinv_updateCredential {st : AuthState} {now id : Nat}
    {hc : HashedCredential} {st' : AuthState}
    (h : updateCredential st now id hc = .ok st') (hwf : Wf st) :
    StepInv st st' := by
  unfold updateCredential at h
  split at h
  · simp at h
  · simp only [Except.ok.injEq] at h
    subst h
    obtain ⟨fk, stok, vtok, uid, snod, vnod, unod, enod⟩ := hwf
    obtain ⟨hidmap, hemailmap, hexj⟩ :=
      @users_map_facts
        (fun u => if u.id == id then
          { u with hashedCredential := hc, updatedAt := now } else u)
        (fun u => by by_cases h2 : u.id == id <;> simp [h2])
        (fun u => by by_cases h2 : u.id == id <;> simp [h2]) st.users
    refine ⟨⟨?_, stok, vtok, ?_, snod, vnod, ?_, ?_⟩, Nat.le_refl _,
      ?_, ?_⟩
    · intro s hs
      exact hexj s.userId (fk s hs)
    · intro u hu
      have hm : u.id ∈ (st.users.map (fun u => if u.id == id then
          { u with hashedCredential := hc, updatedAt := now } else u)).map
            User.id :=
        List.mem_map_of_mem User.id hu
      rw [hidmap] at hm
      obtain ⟨u', hu', hequ⟩ := List.mem_map.mp hm
      rw [← hequ]
      exact uid u' hu'
    · show (List.map User.id (st.users.map (fun u => if u.id == id then
          { u with hashedCredential := hc, updatedAt := now } else u))).Nodup
      rw [hidmap]
      exact unod
    · show (List.map User.email (st.users.map (fun u => if u.id == id then
          { u with hashedCredential := hc, updatedAt := now } else u))).Nodup
      rw [hemailmap]
      exact enod
    · intro t ht habs s hs
      exact habs s hs
    · intro t ht habs w hw
      exact habs w hw

/-- Every operation satisfies the step invariant. -/
theorem step_stepinv {st st' : AuthState} (h : Step st st') (hwf : Wf st) :
    StepInv st st' := by
  cases h with
  | opCreateUser now email name hc u _ h =>
    exact stepinv_createUser h hwf
  | opUpdateCredential now id hc _ h =>
    exact stepinv_updateCredential h hwf
  | opRegister now email password name u _ h =>
    exact stepinv_createUser (register_ok_elim h).2.2 hwf
  | opLogin now email password s _ h =>
    exact stepinv_login h hwf
  | opRevoke token =>
    exact stepinv_revokeState st token hwf
  | opRequestVerification now userId purpose =>
    exact stepinv_requestVerification st now userId purpose hwf
  | opConsumeVerification now token _ h =>
    exact stepinv_consumeVerification h hwf

/-- Any sequence of operations preserves the invariants, keeps the
freshness counter monotone, and never re-adds an absent below-counter
token. -/
theorem reachable_stepinv {st st' : AuthState} (h : Reachable st st')
    (hwf : Wf st) :
    Wf st' ∧ st.nextId ≤ st'.nextId ∧
    (∀ t, t < st.nextId → (∀ s ∈ st.sessions, s.token ≠ t) →
      ∀ s ∈ st'.sessions, s.token ≠ t) ∧
    (∀ t, t < st.nextId → (∀ v ∈ st.verifications, v.token ≠ t) →
      ∀ v ∈ st'.verifications, v.token ≠ t) := by
  induction h with
  | refl =>
    exact ⟨hwf, Nat.le_refl _, fun t ht ha => ha, fun t ht ha => ha⟩
  | tail hab hbc ih =>
    obtain ⟨hwf1, hle1, hs1, hv1⟩ := ih
    obtain ⟨hwf2, hle2, hs2, hv2⟩ := step_stepinv hbc hwf1
    refine ⟨hwf2, Nat.le_trans hle1 hle2, ?_, ?_⟩
    · intro t ht ha
      exact hs2 t (Nat.lt_of_lt_of_le ht hle1) (hs1 t ht ha)
    · intro t ht ha
      exact hv2 t (Nat.lt_of_lt_of_le ht hle1) (hv1 t ht ha)

/-- A present but expired verification token is rejected. -/
theorem consume_found_expired {st : AuthState} {now tok : Nat}
    {v : VerificationToken}
    (hfind : st.verifications.find? (fun w => w.token == tok) = some v)
    (hexp : v.expiresAt < now) :
    consumeVerification st now tok = .error .InvalidOrExpiredToken := by
  unfold consumeVerification
  rw [hfind]
  split
  · rename_i heq
    exact Option.noConfusion heq
  · rename_i v' heq
    injection heq with h
    subst h
    rw [if_pos hexp]

/-- The empty store is well-formed. -/
theorem wf_empty : Wf emptyAuthState := by
  refine ⟨?_, ?_, ?_, ?_, ?_, ?_, ?_, ?_⟩ <;> simp [emptyAuthState]

/-! ## Claims -/

/-- C10: the factory bound to `DATABASE_CONNECTION` always returns a
drizzle instance constructed with an empty schema object: for every value
of `DATABASE_URL`, no table is registered with the ORM by this code. -/
theorem databaseConnectionFactory_empty_schema
    (env : String → Option String) (d : DrizzleDatabase)
    (h : databaseConnectionFactory env = .ok d) :
    d.config.schema = [] ∧ ∀ table : String, table ∉ d.config.schema := by
  unfold databaseConnectionFactory getOrThrow at h
  cases henv : env "DATABASE_URL" <;> rw [henv] at h
  · exact absurd h (by simp)
  · simp only [Except.ok.injEq] at h
    subst h
    exact ⟨rfl, by simp⟩

/-- C10 witness: with `DATABASE_URL` set, the factory returns the empty
schema. -/
theorem databaseConnectionFactory_empty_schema_witness :
    (databaseConnectionFactory (fun _ => some "postgres://localhost/db") =
      .ok { connectionString := "postgres://localhost/db",
            config := { schema := [] } }) ∧
    ({ connectionString := "postgres://localhost/db",
       config := { schema := [] } } : DrizzleDatabase).config.schema = [] :=
  ⟨rfl, (databaseConnectionFactory_empty_schema (fun _ => some "postgres://localhost/db") _ rfl).1⟩

/-- C9 counterexample: the specification also counts a session-TTL option
and a hashing-cost option into the environment surface, but neither is
recognized; the recognized surface stops at connection string, frontend
origin and port. -/
theorem env_surface_counterexample :
    EnvOption.sessionTTLOption ∈ claimedEnvSurface ∧
    EnvOption.sessionTTLOption ∉ recognizedEnvSurface ∧
    EnvOption.hashCostOption ∈ claimedEnvSurface ∧
    EnvOption.hashCostOption ∉ recognizedEnvSurface := by
  decide

/-- C9 (amended): the recognized environment surface is exactly the
database connection string, the frontend origin, and the network port;
moreover the database factory depends on the environment only through the
recognized `DATABASE_URL` variable. -/
theorem recognized_env_surface :
    recognizedEnvSurface.map envVarName = ["DATABASE_URL", "UI_URL", "PORT"] ∧
    (∀ env env' : String → Option String,
      env (envVarName .databaseUrl) = env' (envVarName .databaseUrl) →
      databaseConnectionFactory env = databaseConnectionFactory env') := by
  refine ⟨rfl, ?_⟩
  intro env env' h
  simp only [envVarName] at h
  unfold databaseConnectionFactory getOrThrow
  rw [h]

/-- C9 witness: two environments agreeing on `DATABASE_URL` yield the same
database instance. -/
theorem recognized_env_surface_witness :
    databaseConnectionFactory (fun _ => some "postgres://h/db") =
      databaseConnectionFactory
        (fun n => if n = "DATABASE_URL" then some "postgres://h/db" else none) :=
  recognized_env_surface.2 _ _ (by decide)

/-- C1 counterexample: under the second `AppModule` variant of the source
no guard is registered, so a request with no token to a route not marked
public reaches the handler with no attached user. -/
theorem no_guard_variant_unprotected :
    dispatch appModuleNoGuardProviders emptyAuthState 0
      { isPublic := false, token := none } = Outcome.handled none := rfl

/-- C1 (amended): under the `AppModule` variant that registers `AuthGuard`
as the global `APP_GUARD`, default-deny holds: a request to a non-public
route with no token, or whose token does not validate, is rejected
`Unauthorized`; a validating token lets the handler run with the owning
user attached; and the handler never runs without an authenticated user. -/
theorem access_guard_default_deny (st : AuthState) (now : Nat)
    (req : Request) (hpub : req.isPublic = false) :
    (req.token = none →
      dispatch appModuleProviders st now req = .rejected .Unauthorized) ∧
    (∀ t e, req.token = some t → validate st now t = .error e →
      dispatch appModuleProviders st now req = .rejected .Unauthorized) ∧
    (∀ t u, req.token = some t → validate st now t = .ok u →
      dispatch appModuleProviders st now req = .handled (some u)) ∧
    (∀ ou, dispatch appModuleProviders st now req = .handled ou →
      ∃ t u, req.token = some t ∧ validate st now t = .ok u ∧ ou = some u) := by
  have hg : hasGlobalAuthGuard appModuleProviders = true := by decide
  refine ⟨?_, ?_, ?_, ?_⟩
  · intro htok
    simp [dispatch, hg, authGuardCheck, hpub, htok]
  · intro t e htok hv
    simp [dispatch, hg, authGuardCheck, hpub, htok, hv]
  · intro t u htok hv
    simp [dispatch, hg, authGuardCheck, hpub, htok, hv]
  · intro ou hdisp
    cases htok : req.token with
    | none =>
      simp [dispatch, hg, authGuardCheck, hpub, htok] at hdisp
    | some t =>
      cases hv : validate st now t with
      | ok u =>
        simp [dispatch, hg, authGuardCheck, hpub, htok, hv] at hdisp
        exact ⟨t, u, rfl, hv, hdisp.symm⟩
      | error e =>
        simp [dispatch, hg, authGuardCheck, hpub, htok, hv] at hdisp

/-- C1 witness: in the guarded variant, a tokenless request to a
non-public route is rejected. -/
theorem access_guard_default_deny_witness :
    dispatch appModuleProviders emptyAuthState 0
      { isPublic := false, token := none } =
      Outcome.rejected AuthError.Unauthorized :=
  (access_guard_default_deny emptyAuthState 0
    { isPublic := false, token := none } rfl).1 rfl

/-- When the token lookup fails, `validate` reports `SessionNotFound`. -/
theorem validate_absent (st : AuthState) (now tok : Nat)
    (h : st.sessions.find? (fun s => s.token == tok) = none) :
    validate st now tok = .error .SessionNotFound := by
  unfold validate
  rw [h]

/-- C6: `revoke` is idempotent: it returns ok even on an absent token,
revoking twice returns the same ok state, and after revocation `validate`
no longer accepts the token. -/
theorem revoke_idempotent (st : AuthState) (token now : Nat) :
    revoke st token = .ok (revokeState st token) ∧
    revoke (revokeState st token) token = .ok (revokeState st token) ∧
    validate (revokeState st token) now token = .error .SessionNotFound := by
  refine ⟨rfl, ?_, ?_⟩
  · simp only [revoke, revokeState, Except.ok.injEq]
    simp [filter_idem]
  · exact validate_absent _ _ _ (find?_filter_key_none Session.token st.sessions token)

/-- C4: a login with an unknown email and a login with a known email but
wrong password both fail with `InvalidCredentials` and return identical
observable results. -/
theorem login_enumeration_resistance (st₁ st₂ : AuthState) (now₁ now₂ : Nat)
    (e₁ e₂ p₁ p₂ : String) (u : User)
    (h₁ : findByEmail st₁ e₁ = none)
    (h₂ : findByEmail st₂ e₂ = some u)
    (hwrong : verifyCredential u.hashedCredential p₂ = false) :
    login st₁ now₁ e₁ p₁ = .error .InvalidCredentials ∧
    login st₂ now₂ e₂ p₂ = .error .InvalidCredentials ∧
    login st₁ now₁ e₁ p₁ = login st₂ now₂ e₂ p₂ := by
  have ha : login st₁ now₁ e₁ p₁ = .error .InvalidCredentials := by
    simp [login, h₁]
  have hb : login st₂ now₂ e₂ p₂ = .error .InvalidCredentials := by
    simp [login, h₂, hwrong]
  exact ⟨ha, hb, ha.trans hb.symm⟩

/-- C2: for every triple accepted by `register`, a subsequent `login`
with the same credentials succeeds and the returned session is owned by
the registered user. -/
theorem register_then_login (st : AuthState) (now now' : Nat)
    (email password name : String) (u : User) (st' : AuthState)
    (hreg : register st now email password name = .ok (u, st')) :
    ∃ s st'', login st' now' email password = .ok (s, st'') ∧
      s.userId = u.id := by
  obtain ⟨hv, hlen, hcu⟩ := register_ok_elim hreg
  obtain ⟨hfree, hu, hst⟩ := createUser_ok_elim hcu
  subst hu
  subst hst
  have hfind : findByEmail
      { st with
        users := ({ id := st.nextId, email := email, name := name,
                    hashedCredential := hashCredential st.hashCost password,
                    emailVerified := false, createdAt := now,
                    updatedAt := now } : User) :: st.users,
        nextId := st.nextId + 1 } email =
      some ({ id := st.nextId, email := email, name := name,
              hashedCredential := hashCredential st.hashCost password,
              emailVerified := false, createdAt := now,
              updatedAt := now } : User) := by
    simp [findByEmail]
  have hver : verifyCredential
      (hashCredential st.hashCost password) password = true := by
    simp [verifyCredential, hashCredential]
  exact ⟨_, _, login_succeeds hfind hver now', rfl⟩

/-- C2 witness: registering the demo user then logging in succeeds and
the session belongs to them. -/
theorem register_then_login_witness :
    ∃ s st'', login demoState 1 "a@b.com" "correcthorse" = .ok (s, st'') ∧
      s.userId = demoUser.id :=
  register_then_login emptyAuthState 0 1 "a@b.com" "correcthorse" "A"
    demoUser demoState rfl

/-- C5: a stored session validates until its expiry instant, is rejected
`SessionExpired` strictly after it, every session issued by `login`
expires exactly the configured TTL after its creation, and the default
TTL is 7 days. -/
theorem validate_expiry (st : AuthState) (now tok : Nat) (s : Session)
    (u : User)
    (hs : st.sessions.find? (fun x => x.token == tok) = some s)
    (hu : findById st s.userId = some u) :
    (now ≤ s.expiresAt → validate st now tok = .ok u) ∧
    (s.expiresAt < now → validate st now tok = .error .SessionExpired) ∧
    (∀ stL nowL e p sL stL', login stL nowL e p = .ok (sL, stL') →
      sL.createdAt = nowL ∧ sL.expiresAt = nowL + stL.sessionTTL) ∧
    emptyAuthState.sessionTTL = 7 * 24 * 60 * 60 := by
  refine ⟨?_, ?_, ?_, rfl⟩
  · intro h
    unfold validate
    rw [hs]
    split
    · rename_i heq
      exact Option.noConfusion heq
    · rename_i s' heq
      injection heq with h'
      subst h'
      rw [if_neg (Nat.not_lt.mpr h), hu]
  · intro h
    unfold validate
    rw [hs]
    split
    · rename_i heq
      exact Option.noConfusion heq
    · rename_i s' heq
      injection heq with h'
      subst h'
      rw [if_pos h]
  · intro stL nowL e p sL stL' hl
    obtain ⟨uL, _, _, hsL, _⟩ := login_ok_elim hl
    subst hsL
    exact ⟨rfl, rfl⟩

/-- C5 witness: the demo session validates before its expiry. -/
theorem validate_expiry_witness :
    validate demoSessionState 5 1 = .ok demoUser :=
  (validate_expiry demoSessionState 5 1 demoSession demoUser
    (by decide) (by decide)).1 (by decide)

/-- C3: a successful consume makes every later consume of the same token
fail `InvalidOrExpiredToken`; the token is gone from the store, the state
change it authorizes happened in the same transition, and a freshly
requested unexpired token does consume successfully once. -/
theorem consume_verification_single_use (st : AuthState) (now now₂ tok : Nat)
    (st' : AuthState) (h : consumeVerification st now tok = .ok st') :
    consumeVerification st' now₂ tok = .error .InvalidOrExpiredToken ∧
    (∀ v ∈ st'.verifications, v.token ≠ tok) ∧
    (∀ v, st.verifications.find? (fun w => w.token == tok) = some v →
      v.purpose = Purpose.emailVerify →
      st'.users = setEmailVerified st.users v.userId) ∧
    (∀ st₀ now₀ uid purpose, ∀ now₁ ≤ now₀ + st₀.verificationTTL,
      ∃ st₁, consumeVerification (requestVerification st₀ now₀ uid purpose).2
        now₁ (requestVerification st₀ now₀ uid purpose).1.token = .ok st₁) := by
  obtain ⟨v, hfind, hexp, hst⟩ := consumeVerification_ok_elim h
  subst hst
  refine ⟨?_, ?_, ?_, ?_⟩
  · exact consume_absent _ now₂ tok
      (find?_filter_key_none VerificationToken.token st.verifications tok)
  · intro v' hv'
    have hmem := (List.mem_filter.mp hv').2
    simpa using hmem
  · intro v₀ hfind₀ hpurp
    rw [hfind₀] at hfind
    injection hfind with hv
    subst hv
    show (if v₀.purpose = Purpose.emailVerify then
        setEmailVerified st.users v₀.userId else st.users) = _
    rw [if_pos hpurp]
  · intro st₀ now₀ uid purpose now₁ hle
    have hfind₁ : (requestVerification st₀ now₀ uid purpose).2.verifications.find?
        (fun w => w.token == (requestVerification st₀ now₀ uid purpose).1.token) =
        some (requestVerification st₀ now₀ uid purpose).1 := by
      simp [requestVerification]
    exact ⟨_, consume_found hfind₁ (Nat.not_lt.mpr hle)⟩

/-- C3 witness: consuming the demo token a second time fails. -/
theorem consume_verification_single_use_witness :
    consumeVerification demoVerifConsumed 0 1 =
      .error .InvalidOrExpiredToken :=
  (consume_verification_single_use demoVerifState 0 0 1 demoVerifConsumed
    rfl).1

/-- C8: with a free email and valid inputs, running two registrations for
the same email in either interleaving order makes exactly one succeed and
the other fail `EmailInUse`; and the storage operation `createUser` itself
rejects any occupied email with `DuplicateEmail`. -/
theorem concurrent_registration_exclusive (st : AuthState) (now₁ now₂ : Nat)
    (email p₁ n₁ p₂ n₂ : String)
    (hv : validEmail email = true)
    (hl₁ : minPasswordLength ≤ p₁.length)
    (hl₂ : minPasswordLength ≤ p₂.length)
    (hfree : findByEmail st email = none) :
    (∃ u st', register st now₁ email p₁ n₁ = .ok (u, st') ∧
      register st' now₂ email p₂ n₂ = .error .EmailInUse) ∧
    (∃ u st', register st now₂ email p₂ n₂ = .ok (u, st') ∧
      register st' now₁ email p₁ n₁ = .error .EmailInUse) ∧
    (∀ st₂ now₃ name₃ hc₃, findByEmail st₂ email ≠ none →
      createUser st₂ now₃ email name₃ hc₃ = .error .DuplicateEmail) := by
  have hfoundAfter : ∀ now₀ p₀ n₀, minPasswordLength ≤ String.length p₀ →
      ∃ u st', register st now₀ email p₀ n₀ = .ok (u, st') ∧
        findByEmail st' email = some u := by
    intro now₀ p₀ n₀ hl₀
    refine ⟨_, _, register_succeeds hv hl₀ hfree now₀ n₀, ?_⟩
    simp [findByEmail]
  refine ⟨?_, ?_, ?_⟩
  · obtain ⟨u, st', hok, hfound⟩ := hfoundAfter now₁ p₁ n₁ hl₁
    exact ⟨u, st', hok, register_email_in_use hv hl₂ hfound now₂ n₂⟩
  · obtain ⟨u, st', hok, hfound⟩ := hfoundAfter now₂ p₂ n₂ hl₂
    exact ⟨u, st', hok, register_email_in_use hv hl₁ hfound now₁ n₁⟩
  · intro st₂ now₃ name₃ hc₃ hne
    cases hfind : findByEmail st₂ email with
    | none => exact absurd hfind hne
    | some u =>
      unfold createUser
      rw [hfind]

/-- C8 witness: two concrete duplicate registrations, one per order. -/
theorem concurrent_registration_exclusive_witness :
    ∃ u st', register emptyAuthState 3 "a@b.com" "correcthorse" "A" =
        .ok (u, st') ∧
      register st' 4 "a@b.com" "trustno1!" "B" = .error .EmailInUse :=
  (concurrent_registration_exclusive emptyAuthState 3 4 "a@b.com"
    "correcthorse" "A" "trustno1!" "B"
    (by decide) (by decide) (by decide) (by decide)).1

/-- C7: in every state reachable by operations from a well-formed state,
the invariant set holds (foreign-key integrity and token uniqueness); a
revoked or absent session token is never reissued; a consumed
verification token never validates again; and an expired verification
token never validates. -/
theorem operations_preserve_invariants (st st' : AuthState)
    (hwf : Wf st) (h : Reachable st st') :
    Wf st' ∧
    (∀ t, t < st.nextId → (∀ s ∈ st.sessions, s.token ≠ t) →
      ∀ s ∈ st'.sessions, s.token ≠ t) ∧
    (∀ now tok st₂, consumeVerification st' now tok = .ok st₂ →
      ∀ now₂, consumeVerification st₂ now₂ tok =
        .error .InvalidOrExpiredToken) ∧
    (∀ v ∈ st'.verifications, ∀ now, v.expiresAt < now →
      consumeVerification st' now v.token =
        .error .InvalidOrExpiredToken) := by
  obtain ⟨hwf', hle, hsess, hver⟩ := reachable_stepinv h hwf
  refine ⟨hwf', hsess, ?_, ?_⟩
  · intro now tok st₂ hc now₂
    obtain ⟨v, hfind, hexp, hst⟩ := consumeVerification_ok_elim hc
    subst hst
    exact consume_absent _ now₂ tok
      (find?_filter_key_none VerificationToken.token _ tok)
  · intro v hv now hnow
    cases hfindv : st'.verifications.find? (fun w => w.token == v.token) with
    | none =>
      exact consume_absent _ now v.token hfindv
    | some v' =>
      have hveq : v' = v := by
        have hmem' := List.mem_of_find?_eq_some hfindv
        have hpred := List.find?_some hfindv
        simp only [beq_iff_eq] at hpred
        obtain ⟨_, _, _, _, _, vnod, _, _⟩ := hwf'
        exact List.inj_on_of_nodup_map vnod hmem' hv hpred
      subst hveq
      exact consume_found_expired hfindv hnow

/-- C7 witness: a concrete register step from the empty store lands in a
well-formed state. -/
theorem operations_preserve_invariants_witness : Wf demoState :=
  (operations_preserve_invariants emptyAuthState demoState wf_empty
    (Relation.ReflTransGen.single
      (Step.opRegister emptyAuthState 0 "a@b.com" "correcthorse" "A"
        demoUser demoState rfl))).1

/-- C4 witness: the two failing login runs on concrete stores are equal. -/
theorem login_enumeration_resistance_witness :
    login emptyAuthState 0 "a@b.com" "correcthorse" =
      login demoState 0 "a@b.com" "wrong" :=
  (login_enumeration_resistance emptyAuthState demoState 0 0
    "a@b.com" "a@b.com" "correcthorse" "wrong" demoUser
    (by decide) (by decide) (by decide)).2.2

end BetterAuthDemo
